import Mathlib

set_option maxRecDepth 100000

/-!
Verification of the memeoid meme-compositing and caching pipeline.

The definitions below are a shallow embedding of the Go sources:
`api/handler.go` (ApiHandler: UID, MemeFromRequest, generateMeme, Preview,
request validation), the `Meme` service (ImageExists, MemeExists, CreateUID,
Save), and `api/fsgateway.go` (FsImageGateway: FindImage, FindMeme, find,
Save).  Machine words are modelled as `Nat` with explicit reduction modulo
2^32 where the Go code computes on `uint32` (the SHA-1 digest used by
`CreateUID`), strings as Lean `String` hashed through their UTF-8 bytes,
and the filesystem as the list of existing paths.  Side effects of a
handler run (which gateway / engine operations were invoked) are
reified as an ordered trace of events.
-/

/-! ## 32-bit arithmetic helpers (Go `uint32` semantics) -/

/-- Reduce a natural number modulo 2^32, the Go `uint32` wrap-around. -/
def w32 (x : Nat) : Nat := x % 4294967296

/-- Rotate a 32-bit word left by `n` bits (Go `bits.RotateLeft32`). -/
def rotl32 (n x : Nat) : Nat :=
  w32 (x <<< n) ||| (w32 x >>> (32 - n))

/-- Bitwise complement of a 32-bit word (Go `^x` on `uint32`). -/
def compl32 (x : Nat) : Nat := Nat.xor x 4294967295

/-! ## UTF-8 bytes of a string

Go strings are byte slices; `[]byte(s)` of a Go string literal is its UTF-8
encoding.  We model a byte as a `Nat` below 256. -/

/-- UTF-8 encoding of a single character as a list of bytes. -/
def utf8Encode (c : Char) : List Nat :=
  let n := c.toNat
  if n < 128 then [n]
  else if n < 2048 then [192 + n / 64, 128 + n % 64]
  else if n < 65536 then [224 + n / 4096, 128 + (n / 64) % 64, 128 + n % 64]
  else [240 + n / 262144, 128 + (n / 4096) % 64, 128 + (n / 64) % 64, 128 + n % 64]

/-- The UTF-8 bytes of a string (Go `[]byte(s)`). -/
def strBytes (s : String) : List Nat := s.data.flatMap utf8Encode

/-! ## SHA-1 (Go `crypto/sha1`), used by `Meme.CreateUID` -/

/-- Big-endian 32-bit word from four bytes. -/
def beWord (a b c d : Nat) : Nat := ((a * 256 + b) * 256 + c) * 256 + d

/-- Split a byte list into big-endian 32-bit words. -/
def bytesToWords : List Nat → List Nat
  | a :: b :: c :: d :: rest => beWord a b c d :: bytesToWords rest
  | _ => []

/-- Big-endian 8-byte encoding of a 64-bit length. -/
def be64 (n : Nat) : List Nat :=
  [(n >>> 56) % 256, (n >>> 48) % 256, (n >>> 40) % 256, (n >>> 32) % 256,
   (n >>> 24) % 256, (n >>> 16) % 256, (n >>> 8) % 256, n % 256]

/-- Big-endian 4-byte encoding of a 32-bit word. -/
def be32 (n : Nat) : List Nat :=
  [(n >>> 24) % 256, (n >>> 16) % 256, (n >>> 8) % 256, n % 256]

/-- SHA-1 message padding: append `0x80`, zero bytes, and the 64-bit
bit-length so the total length is a multiple of 64 bytes. -/
def sha1Pad (msg : List Nat) : List Nat :=
  let len := msg.length
  let zeros := (119 - (len % 64)) % 64
  msg ++ [128] ++ List.replicate zeros 0 ++ be64 (8 * len)

/-- Split a byte list into 64-byte chunks; the fuel argument bounds the
number of chunks and is instantiated with the list length. -/
def chunks64Go : Nat → List Nat → List (List Nat)
  | 0, _ => []
  | _, [] => []
  | fuel + 1, l => l.take 64 :: chunks64Go fuel (l.drop 64)

/-- Split a (padded) byte list into 64-byte chunks. -/
def chunks64 (l : List Nat) : List (List Nat) := chunks64Go l.length l

/-- One step of the SHA-1 message-schedule extension: append
`rotl1 (w[i-3] ^ w[i-8] ^ w[i-14] ^ w[i-16])`. -/
def extendStep (ws : List Nat) : List Nat :=
  let l := ws.length
  ws ++ [rotl32 1 (Nat.xor (Nat.xor (ws.getD (l - 3) 0) (ws.getD (l - 8) 0))
                  (Nat.xor (ws.getD (l - 14) 0) (ws.getD (l - 16) 0)))]

/-- The 80-word message schedule of one 64-byte chunk. -/
def sha1Schedule (chunk : List Nat) : List Nat :=
  extendStep^[64] (bytesToWords chunk)

/-- One SHA-1 round: rotate the five-word state with the round function and
constant selected by the round index. -/
def sha1Round (st : Nat × Nat × Nat × Nat × Nat) (iw : Nat × Nat) :
    Nat × Nat × Nat × Nat × Nat :=
  let (a, b, c, d, e) := st
  let (i, wi) := iw
  let f :=
    if i < 20 then (Nat.land b c) ||| (Nat.land (compl32 b) d)
    else if i < 40 then Nat.xor (Nat.xor b c) d
    else if i < 60 then (Nat.land b c) ||| (Nat.land b d) ||| (Nat.land c d)
    else Nat.xor (Nat.xor b c) d
  let k :=
    if i < 20 then 1518500249
    else if i < 40 then 1859775393
    else if i < 60 then 2400959708
    else 3395469782
  let temp := w32 (rotl32 5 a + f + e + k + wi)
  (temp, a, rotl32 30 b, c, d)

/-- SHA-1 compression of one 64-byte chunk into the running state. -/
def sha1Compress (st : Nat × Nat × Nat × Nat × Nat) (chunk : List Nat) :
    Nat × Nat × Nat × Nat × Nat :=
  let (h0, h1, h2, h3, h4) := st
  let (a, b, c, d, e) := (sha1Schedule chunk).enum.foldl sha1Round (h0, h1, h2, h3, h4)
  (w32 (h0 + a), w32 (h1 + b), w32 (h2 + c), w32 (h3 + d), w32 (h4 + e))

/-- SHA-1 digest (20 bytes) of a byte list. -/
def sha1Bytes (msg : List Nat) : List Nat :=
  let st := (chunks64 (sha1Pad msg)).foldl sha1Compress
    (1732584193, 4023233417, 2562383102, 271733878, 3285377520)
  be32 st.1 ++ be32 st.2.1 ++ be32 st.2.2.1 ++ be32 st.2.2.2.1 ++ be32 st.2.2.2.2

/-- Lowercase hexadecimal digit. -/
def hexDigit (n : Nat) : Char :=
  if n < 10 then Char.ofNat (48 + n) else Char.ofNat (87 + n)

/-- Two lowercase hex digits of a byte. -/
def byteHex (b : Nat) : List Char := [hexDigit (b / 16), hexDigit (b % 16)]

/-- Lowercase hex digest of a string, exactly Go's
`fmt.Sprintf("%x", sha1.Sum(data))` applied to the UTF-8 bytes. -/
def sha1Hex (s : String) : String :=
  ⟨(sha1Bytes (strBytes s)).flatMap byteHex⟩

/-! ## Go `net/url` query encoding

A request's query is modelled as the ordered list of `(key, value)` pairs
as they appear in the request URL.  Go's `r.URL.Query()` builds a
`url.Values` (key → values in order of appearance, `Get` returning the
first value), and `Values.Encode` emits `k=v` pairs with the keys in
sorted order, each key and value percent-escaped. -/

/-- Uppercase hexadecimal digit (Go's escaper emits uppercase hex). -/
def hexDigitUpper (n : Nat) : Char :=
  if n < 10 then Char.ofNat (48 + n) else Char.ofNat (55 + n)

/-- Whether a byte is left unescaped by Go's `url.QueryEscape`:
alphanumerics and `-`, `_`, `.`, `~`. -/
def unescapedByte (b : Nat) : Bool :=
  (65 ≤ b && b ≤ 90) || (97 ≤ b && b ≤ 122) || (48 ≤ b && b ≤ 57) ||
  b = 45 || b = 95 || b = 46 || b = 126

/-- Escape one byte as Go `url.QueryEscape` does: unreserved bytes kept,
space becomes `+`, everything else `%XX`. -/
def escByte (b : Nat) : List Char :=
  if unescapedByte b then [Char.ofNat b]
  else if b = 32 then ['+']
  else ['%', hexDigitUpper (b / 16), hexDigitUpper (b % 16)]

/-- Go `url.QueryEscape`. -/
def queryEscape (s : String) : String := ⟨(strBytes s).flatMap escByte⟩

/-- Lexicographic string order, compared through the character lists.  Go
compares strings byte-wise; since UTF-8 preserves codepoint order this is
the same order. -/
def strLe (a b : String) : Prop := a.data ≤ b.data

instance : DecidableRel strLe :=
  fun a b => inferInstanceAs (Decidable (a.data ≤ b.data))

instance : IsTotal String strLe := ⟨fun a b => le_total a.data b.data⟩

instance : IsTrans String strLe := ⟨fun _ _ _ h₁ h₂ => le_trans h₁ h₂⟩

instance : IsAntisymm String strLe :=
  ⟨fun a b h₁ h₂ => by
    cases a; cases b
    simp only [strLe] at h₁ h₂
    exact congrArg String.mk (le_antisymm h₁ h₂)⟩

/-- The distinct keys of a query, sorted in Go `sort.Strings` order. -/
def sortedKeys (q : List (String × String)) : List String :=
  ((q.map Prod.fst).dedup).insertionSort strLe

/-- The values listed under a key, in order of appearance
(`url.Values[k]`). -/
def valuesOf (q : List (String × String)) (k : String) : List String :=
  (q.filter (fun p => p.1 == k)).map Prod.snd

/-- Go `url.Values.Encode`: for each key in sorted order, one `k=v` item
per value, joined by `&`. -/
def encodeQuery (q : List (String × String)) : String :=
  String.intercalate "&"
    ((sortedKeys q).flatMap fun k =>
      (valuesOf q k).map fun v => queryEscape k ++ "=" ++ queryEscape v)

/-- Go `url.Values.Get`: first value of the key, `""` when absent. -/
def getFirst (q : List (String × String)) (k : String) : String :=
  match q.find? (fun p => p.1 == k) with
  | some p => p.2
  | none => ""

/-! ## Request validation (`handler.go`, ozzo-validation)

`memeRequest.Validate` requires `From` to be non-empty, and `Top`
(resp. `Bottom`) to be non-empty whenever the other is empty.
`previewRequest.Validate` requires `From`, `Width`, `Height` to be
non-empty and the latter two to satisfy `is.Int`, i.e. the govalidator
integer pattern: an optional sign followed by `0` or a nonzero digit and
further digits. -/

/-- A parsed meme request (`memeRequest` in `handler.go`). -/
structure MemeReq where
  From : String
  Top : String
  Bottom : String
deriving DecidableEq, Repr

/-- `memeRequest.Validate`: `From` required; `Top` required when `Bottom`
is empty; `Bottom` required when `Top` is empty. -/
def validateMemeReq (r : MemeReq) : Bool :=
  r.From ≠ "" && (r.Top ≠ "" || r.Bottom ≠ "")

/-- `newMemeRequest`: read `from`/`top`/`bottom` from the query and
validate. -/
def newMemeRequest (q : List (String × String)) : Option MemeReq :=
  let req : MemeReq :=
    ⟨getFirst q "from", getFirst q "top", getFirst q "bottom"⟩
  if validateMemeReq req then some req else none

/-- Digits `1`-`9`, then digits, as in the govalidator integer pattern. -/
def intCore : List Char → Bool
  | [] => false
  | ['0'] => true
  | c :: cs => ('1' ≤ c && c ≤ '9') && cs.all (fun d => '0' ≤ d && d ≤ '9')

/-- govalidator `IsInt` (ozzo `is.Int`): optionally signed decimal integer
with no redundant leading zero. -/
def isIntStr (s : String) : Bool :=
  match s.data with
  | [] => false
  | '+' :: rest => intCore rest
  | '-' :: rest => intCore rest
  | l => intCore l

/-- A parsed preview request (`previewRequest` in `handler.go`); the
dimensions are kept as the raw query strings. -/
structure PreviewReq where
  From : String
  Width : String
  Height : String
deriving DecidableEq, Repr

/-- `previewRequest.Validate`: all three fields required, `Width` and
`Height` additionally validated by `is.Int`. -/
def validatePreviewReq (r : PreviewReq) : Bool :=
  r.From ≠ "" && (r.Width ≠ "" && isIntStr r.Width)
    && (r.Height ≠ "" && isIntStr r.Height)

/-- `newPreviewRequest`: read `from`/`width`/`height` and validate. -/
def newPreviewRequest (q : List (String × String)) : Option PreviewReq :=
  let req : PreviewReq :=
    ⟨getFirst q "from", getFirst q "width", getFirst q "height"⟩
  if validatePreviewReq req then some req else none

/-- `previewRequest.toUint`: Go `strconv.ParseUint(field, 10, 0)` with the
error ignored — all-digit strings parse to their value (clamped to the
64-bit maximum, which `ParseUint` returns on range overflow), anything
else yields `0`. -/
def toUint (s : String) : Nat :=
  if s.data ≠ [] && s.data.all (fun d => '0' ≤ d && d ≤ '9') then
    min (s.data.foldl (fun acc d => acc * 10 + (d.toNat - 48)) 0)
      18446744073709551615
  else 0

/-! ## Filesystem and storage gateway (`fsgateway.go`)

The filesystem is the list of existing paths; `os.Stat` existence is
membership.  `path.Join` is modelled as joining with `/` (the claims never
exercise Go's path cleaning). -/

/-- Model of Go `path.Join` for a directory and a file name. -/
def pathJoin (dir name : String) : String := dir ++ "/" ++ name

/-- Insert a path into the filesystem (what a completed `os.Create` plus
write leaves behind); creating an existing path truncates it in place. -/
def fsInsert (fs : List String) (p : String) : List String :=
  if p ∈ fs then fs else fs ++ [p]

/-- `FsImageGateway` configuration: source and destination directories. -/
structure GatewayCfg where
  srcPath : String
  dstPath : String
deriving DecidableEq, Repr

/-- `FsImageGateway.find`: returns the joined path together with the
`os.Stat` outcome — `true` means the file exists (no error). -/
def FsImageGateway.find (fs : List String) (imgFullPath : String) :
    String × Bool :=
  (imgFullPath, decide (imgFullPath ∈ fs))

/-- `FsImageGateway.FindImage`: join the source directory with the image
name and stat it. -/
def FsImageGateway.findImage (g : GatewayCfg) (fs : List String)
    (imageName : String) : String × Bool :=
  FsImageGateway.find fs (pathJoin g.srcPath imageName)

/-- `FsImageGateway.FindMeme`: join the destination directory with the
given name and stat it. -/
def FsImageGateway.findMeme (g : GatewayCfg) (fs : List String)
    (memeUID : String) : String × Bool :=
  FsImageGateway.find fs (pathJoin g.dstPath memeUID)

/-- Outcome of `FsImageGateway.Save` (`os.Create` then `gif.EncodeAll`):
either creation fails, or encoding fails after the file was created, or
both succeed. -/
inductive SaveOutcome
  | ok
  | createFail
  | encodeFail
deriving DecidableEq, Repr

/-- `FsImageGateway.Save`: `os.Create(path)` followed by
`gif.EncodeAll`.  A creation failure leaves the filesystem unchanged; an
encoding failure happens after the file was created, so the (partial)
file remains on disk; success leaves the complete file.  Returns `true`
on success. -/
def FsImageGateway.save (fs : List String) (so : SaveOutcome)
    (imgFullPath : String) : Bool × List String :=
  match so with
  | .createFail => (false, fs)
  | .encodeFail => (false, fsInsert fs imgFullPath)
  | .ok => (true, fsInsert fs imgFullPath)

/-! ## The `Meme` service layer -/

/-- `Meme.ImageExists`: `FindImage`, with the error collapsed to an
existence boolean; the path is passed through either way. -/
def Meme.imageExists (g : GatewayCfg) (fs : List String) (imgName : String) :
    String × Bool :=
  FsImageGateway.findImage g fs imgName

/-- `Meme.MemeExists`: `FindMeme`, with the error collapsed to an
existence boolean; the path is passed through either way. -/
def Meme.memeExists (g : GatewayCfg) (fs : List String) (memeUID : String) :
    String × Bool :=
  FsImageGateway.findMeme g fs memeUID

/-- `Meme.CreateUID`: lowercase hex SHA-1 of the query string
(`hasher.Write` never fails, so the error branch is dead). -/
def Meme.createUID (queryString : String) : String := sha1Hex queryString

/-! ## The orchestrator (`ApiHandler` in `handler.go`) -/

/-- `ApiHandler` configuration used by the request paths. -/
structure HandlerCfg where
  fontName : String
  memeURL : String
deriving DecidableEq, Repr

/-- `ApiHandler.UID`: `Meme.CreateUID` of the canonically encoded query. -/
def ApiHandler.uid (q : List (String × String)) : String :=
  Meme.createUID (encodeQuery q)

/-- Outcome of the compositing-engine calls made by
`ApiHandler.generateMeme` (`img.MemeFromFile` then `Meme.Generate`;
the engine itself lives in the `img` package). -/
inductive EngineOutcome
  | ok
  | decodeFail
  | generateFail
deriving DecidableEq, Repr

/-- The observable operations of one orchestrator run, in invocation
order. -/
inductive Effect
  | findImage (name : String)
  | hashQuery (s : String)
  | findMeme (name : String)
  | memeFromFile (srcPath top bottom font : String)
  | generate
  | save (path : String)
  | simpleTemplate (srcPath font : String)
  | getGif
  | preview (w h : Nat)
deriving DecidableEq, Repr

/-- The HTTP responses produced by `MemeFromRequest`. -/
inductive Response
  | badRequest
  | notFound
  | internalError
  | redirect (url : String)
deriving DecidableEq, Repr

/-- The redirect URL built by `MemeFromRequest`:
`fmt.Sprintf("/%s/%s.gif", h.MemeURL, uid)`. -/
def refURL (cfg : HandlerCfg) (uid : String) : String :=
  "/" ++ cfg.memeURL ++ "/" ++ uid ++ ".gif"

/-- `ApiHandler.generateMeme`: `img.MemeFromFile`, then `meme.Generate`,
then `Meme.Save` to the destination path; each failure aborts the chain.
Returns success, the new filesystem, and the invoked operations. -/
def ApiHandler.generateMeme (eng : EngineOutcome) (so : SaveOutcome)
    (fs : List String) (srcImagePath top bottom font dstImgPath : String) :
    Bool × List String × List Effect :=
  match eng with
  | .decodeFail => (false, fs, [.memeFromFile srcImagePath top bottom font])
  | .generateFail =>
      (false, fs, [.memeFromFile srcImagePath top bottom font, .generate])
  | .ok =>
      let (okSave, fs') := FsImageGateway.save fs so dstImgPath
      (okSave, fs',
        [.memeFromFile srcImagePath top bottom font, .generate, .save dstImgPath])

/-- `ApiHandler.MemeFromRequest`: validate, resolve the source image,
compute the UID, consult the meme cache, generate on a miss, and redirect
to the meme URL.  Returns the response, the filesystem after the run, and
the invoked operations in order. -/
def ApiHandler.memeFromRequest (g : GatewayCfg) (cfg : HandlerCfg)
    (eng : EngineOutcome) (so : SaveOutcome) (fs : List String)
    (q : List (String × String)) : Response × List String × List Effect :=
  match newMemeRequest q with
  | none => (.badRequest, fs, [])
  | some req =>
    let (srcImgPath, srcImgExists) := Meme.imageExists g fs req.From
    if srcImgExists = false then (.notFound, fs, [.findImage req.From])
    else
      let enc := encodeQuery q
      let uid := Meme.createUID enc
      let (dstGifPath, gifExists) := Meme.memeExists g fs uid
      let trace := [.findImage req.From, .hashQuery enc, .findMeme uid]
      if gifExists = false then
        match ApiHandler.generateMeme eng so fs srcImgPath req.Top req.Bottom
          cfg.fontName dstGifPath with
        | (false, fs', tr) => (.internalError, fs', trace ++ tr)
        | (true, fs', tr) =>
            (.redirect (refURL cfg uid), fs', trace ++ tr)
      else (.redirect (refURL cfg uid), fs, trace)

/-- Outcome of the preview engine calls (`img.SimpleTemplate`, then
`tpl.GetGif`; both live in the `img` package). -/
inductive PreviewOutcome
  | ok
  | templateFail
  | gifFail
deriving DecidableEq, Repr

/-- The responses produced by `ApiHandler.Preview`. -/
inductive PResponse
  | badRequest
  | notFound
  | internalError
  | okJpeg (w h : Nat)
deriving DecidableEq, Repr

/-- `ApiHandler.Preview`: validate, resolve the source image, build the
template, decode the gif, and render the thumbnail at the parsed
width and height. -/
def ApiHandler.previewFromRequest (g : GatewayCfg) (cfg : HandlerCfg)
    (po : PreviewOutcome) (fs : List String) (q : List (String × String)) :
    PResponse × List Effect :=
  match newPreviewRequest q with
  | none => (.badRequest, [])
  | some req =>
    let (srcImgPath, srcImgExists) := Meme.imageExists g fs req.From
    if srcImgExists = false then (.notFound, [.findImage req.From])
    else
      match po with
      | .templateFail =>
          (.internalError,
            [.findImage req.From, .simpleTemplate srcImgPath cfg.fontName])
      | .gifFail =>
          (.internalError,
            [.findImage req.From, .simpleTemplate srcImgPath cfg.fontName,
             .getGif])
      | .ok =>
          (.okJpeg (toUint req.Width) (toUint req.Height),
            [.findImage req.From, .simpleTemplate srcImgPath cfg.fontName,
             .getGif, .preview (toUint req.Width) (toUint req.Height)])

/-! ## The compositing engine (`img` package), modelled from the spec -/

/-- One frame of an animation: pixel data, palette, display delay and
disposal metadata. -/
structure Frame where
  pixels : List Nat
  palette : List Nat
  delay : Int
  disposal : Nat
deriving DecidableEq, Repr

/-- An animation as its ordered sequence of frames. -/
structure Animation where
  frames : List Frame
deriving DecidableEq, Repr

/-- Modelled from the spec: the per-frame caption overlay of the `img`
package's `Meme.Generate` (the `img` package is not part of the sources
under verification).  Per spec section 4.3, each frame independently gets
the constant top and bottom captions burned into its pixels with the
palette extended by the ink colors, while the frame's delay and disposal
metadata are carried over unchanged. -/
def captionFrame (top bottom : String) (f : Frame) : Frame :=
  { f with
    pixels := (strBytes top).map (fun b => f.palette.length + b % 2)
      ++ f.pixels ++ (strBytes bottom).map (fun b => f.palette.length + b % 2),
    palette := f.palette ++ [0, 16777215] }

/-- Modelled from the spec: `GenerateMeme` of the Compositing Engine
(spec section 4.3) — caption every frame independently, preserving frame
order, count, delay and disposal. -/
def generateAnimation (top bottom : String) (a : Animation) : Animation :=
  ⟨a.frames.map (captionFrame top bottom)⟩

/-! ## Helper lemmas -/

theorem length_le_one_of_nodup_const {α : Type} {l : List α} {k : α}
    (hn : l.Nodup) (hall : ∀ x ∈ l, x = k) : l.length ≤ 1 := by
  match l with
  | [] => simp
  | [a] => simp
  | a :: b :: t =>
    exfalso
    have ha := hall a (by simp)
    have hb := hall b (by simp)
    have hne : a ≠ b := by
      have hc := List.nodup_cons.mp hn
      exact fun h => hc.1 (h ▸ List.mem_cons_self b t)
    exact hne (ha.trans hb.symm)

theorem eq_of_perm_of_length_le_one {α : Type} {l₁ l₂ : List α}
    (h : l₁.Perm l₂) (hl : l₁.length ≤ 1) : l₁ = l₂ := by
  match l₁, hl with
  | [], _ => exact (List.Perm.nil_eq h).symm.symm ▸ rfl
  | [a], _ => exact (List.perm_singleton.mp h.symm).symm

theorem valuesOf_eq_of_perm {q₁ q₂ : List (String × String)}
    (h : q₁.Perm q₂) (hn : (q₁.map Prod.fst).Nodup) (k : String) :
    valuesOf q₁ k = valuesOf q₂ k := by
  unfold valuesOf
  have hf : (q₁.filter (fun p => p.1 == k)).Perm
      (q₂.filter (fun p => p.1 == k)) := h.filter _
  have hsub : (q₁.filter (fun p => p.1 == k)).Sublist q₁ :=
    List.filter_sublist q₁
  have hnod : ((q₁.filter (fun p => p.1 == k)).map Prod.fst).Nodup :=
    hn.sublist (hsub.map Prod.fst)
  have hall : ∀ x ∈ (q₁.filter (fun p => p.1 == k)).map Prod.fst, x = k := by
    intro x hx
    rcases List.mem_map.mp hx with ⟨p, hp, hpx⟩
    have := (List.mem_filter.mp hp).2
    simp only [beq_iff_eq] at this
    exact hpx ▸ this
  have hlen : (q₁.filter (fun p => p.1 == k)).length ≤ 1 := by
    have := length_le_one_of_nodup_const hnod hall
    simpa using this
  rw [eq_of_perm_of_length_le_one hf hlen]

theorem sortedKeys_eq_of_perm {q₁ q₂ : List (String × String)}
    (h : q₁.Perm q₂) (hn : (q₁.map Prod.fst).Nodup) :
    sortedKeys q₁ = sortedKeys q₂ := by
  unfold sortedKeys
  have hmap : (q₁.map Prod.fst).Perm (q₂.map Prod.fst) := h.map Prod.fst
  have hn₂ : (q₂.map Prod.fst).Nodup := hmap.nodup_iff.mp hn
  rw [List.dedup_eq_self.mpr hn, List.dedup_eq_self.mpr hn₂]
  have hperm :
      ((q₁.map Prod.fst).insertionSort strLe).Perm
      ((q₂.map Prod.fst).insertionSort strLe) :=
    ((List.perm_insertionSort strLe _).trans hmap).trans
      (List.perm_insertionSort strLe _).symm
  exact List.eq_of_perm_of_sorted hperm
    (List.sorted_insertionSort strLe _) (List.sorted_insertionSort strLe _)

theorem encodeQuery_eq_of_perm {q₁ q₂ : List (String × String)}
    (h : q₁.Perm q₂) (hn : (q₁.map Prod.fst).Nodup) :
    encodeQuery q₁ = encodeQuery q₂ := by
  unfold encodeQuery
  rw [sortedKeys_eq_of_perm h hn]
  have hfun :
      (fun k => (valuesOf q₁ k).map fun v =>
        queryEscape k ++ "=" ++ queryEscape v) =
      (fun k => (valuesOf q₂ k).map fun v =>
        queryEscape k ++ "=" ++ queryEscape v) :=
    funext fun k => by rw [valuesOf_eq_of_perm h hn k]
  rw [hfun]

theorem newMemeRequest_some {q : List (String × String)} {req : MemeReq}
    (h : newMemeRequest q = some req) :
    req = ⟨getFirst q "from", getFirst q "top", getFirst q "bottom"⟩ := by
  unfold newMemeRequest at h
  by_cases hv : validateMemeReq
      ⟨getFirst q "from", getFirst q "top", getFirst q "bottom"⟩ = true
  · simp only [hv, if_true] at h
    exact (Option.some_inj.mp h).symm
  · simp only [hv, if_false] at h
    simp at h

theorem mem_fsInsert_self (fs : List String) (p : String) :
    p ∈ fsInsert fs p := by
  unfold fsInsert
  split
  · assumption
  · simp

theorem mem_fsInsert_of_mem {fs : List String} {x : String} (p : String)
    (h : x ∈ fs) : x ∈ fsInsert fs p := by
  unfold fsInsert
  split
  · exact h
  · exact List.mem_append_left _ h

theorem memeFromRequest_invalid (g : GatewayCfg) (cfg : HandlerCfg)
    (eng : EngineOutcome) (so : SaveOutcome) (fs : List String)
    {q : List (String × String)} (hq : newMemeRequest q = none) :
    ApiHandler.memeFromRequest g cfg eng so fs q = (.badRequest, fs, []) := by
  simp [ApiHandler.memeFromRequest, hq]

theorem memeFromRequest_noSource (g : GatewayCfg) (cfg : HandlerCfg)
    (eng : EngineOutcome) (so : SaveOutcome) (fs : List String)
    {q : List (String × String)} {req : MemeReq}
    (hq : newMemeRequest q = some req)
    (hs : pathJoin g.srcPath req.From ∉ fs) :
    ApiHandler.memeFromRequest g cfg eng so fs q =
      (.notFound, fs, [.findImage req.From]) := by
  simp [ApiHandler.memeFromRequest, hq, Meme.imageExists,
    FsImageGateway.findImage, FsImageGateway.find, hs]

theorem memeFromRequest_hit (g : GatewayCfg) (cfg : HandlerCfg)
    (eng : EngineOutcome) (so : SaveOutcome) (fs : List String)
    {q : List (String × String)} {req : MemeReq}
    (hq : newMemeRequest q = some req)
    (hs : pathJoin g.srcPath req.From ∈ fs)
    (hd : pathJoin g.dstPath (ApiHandler.uid q) ∈ fs) :
    ApiHandler.memeFromRequest g cfg eng so fs q =
      (.redirect (refURL cfg (ApiHandler.uid q)), fs,
       [.findImage req.From, .hashQuery (encodeQuery q),
        .findMeme (ApiHandler.uid q)]) := by
  simp only [ApiHandler.uid, Meme.createUID] at hd
  simp [ApiHandler.memeFromRequest, hq, Meme.imageExists,
    FsImageGateway.findImage, FsImageGateway.find, Meme.memeExists,
    FsImageGateway.findMeme, ApiHandler.uid, Meme.createUID, hs, hd]

theorem memeFromRequest_miss (g : GatewayCfg) (cfg : HandlerCfg)
    (eng : EngineOutcome) (so : SaveOutcome) (fs : List String)
    {q : List (String × String)} {req : MemeReq}
    (hq : newMemeRequest q = some req)
    (hs : pathJoin g.srcPath req.From ∈ fs)
    (hd : pathJoin g.dstPath (ApiHandler.uid q) ∉ fs) :
    ApiHandler.memeFromRequest g cfg eng so fs q =
      match ApiHandler.generateMeme eng so fs (pathJoin g.srcPath req.From)
        req.Top req.Bottom cfg.fontName
        (pathJoin g.dstPath (ApiHandler.uid q)) with
      | (false, fs', tr) =>
          (.internalError, fs',
           [.findImage req.From, .hashQuery (encodeQuery q),
            .findMeme (ApiHandler.uid q)] ++ tr)
      | (true, fs', tr) =>
          (.redirect (refURL cfg (ApiHandler.uid q)), fs',
           [.findImage req.From, .hashQuery (encodeQuery q),
            .findMeme (ApiHandler.uid q)] ++ tr) := by
  simp only [ApiHandler.uid, Meme.createUID] at hd
  simp only [ApiHandler.memeFromRequest, hq, Meme.imageExists,
    FsImageGateway.findImage, FsImageGateway.find, Meme.memeExists,
    FsImageGateway.findMeme, ApiHandler.uid, Meme.createUID]
  simp [hs, hd]

/-! ## Claims -/

/-- C1, corrected.  The identity computation `UID` (`Meme.CreateUID` of the
canonically sorted query encoding) is order-independent and deterministic:
two requests whose query parameter lists are permutations of one another —
with no parameter name repeated — produce equal identity strings; computing
the identity twice on the same request gives the same string; and the two
requests of the case-sensitivity example, differing only in the letter case
of the parameter name `First`/`first`, produce different identity strings.
(The original claim quantified over equality as *sets* of key-value pairs,
which fails when a repeated parameter name carries its values in a
different order; see the counterexample.) -/
theorem uid_identity_properties :
    (∀ q₁ q₂ : List (String × String), q₁.Perm q₂ →
      (q₁.map Prod.fst).Nodup → ApiHandler.uid q₁ = ApiHandler.uid q₂)
    ∧ (∀ q : List (String × String), ApiHandler.uid q = ApiHandler.uid q)
    ∧ ApiHandler.uid [("First", "a"), ("last", "b")] ≠
        ApiHandler.uid [("first", "a"), ("last", "b")] := by
  refine ⟨fun q₁ q₂ h hn => ?_, fun q => rfl, ?_⟩
  · unfold ApiHandler.uid Meme.createUID
    rw [encodeQuery_eq_of_perm h hn]
  · decide

/-- C1, counterexample to the claim as stated.  The queries `a=1&a=2` and
`a=2&a=1` are equal as sets of key-value pairs, yet their identity strings
differ: `url.Values.Encode` sorts keys only, keeping each key's values in
request order, so the canonical encodings (`a=1&a=2` vs `a=2&a=1`) and
hence the SHA-1 digests disagree. -/
theorem uid_set_equality_counterexample :
    ([("a", "1"), ("a", "2")] : List (String × String)).toFinset =
      ([("a", "2"), ("a", "1")] : List (String × String)).toFinset
    ∧ ApiHandler.uid [("a", "1"), ("a", "2")] ≠
        ApiHandler.uid [("a", "2"), ("a", "1")] := by
  constructor
  · decide
  · decide

/-- C1, witness: the amended theorem applied to the concrete reordered
queries of the handler test suite. -/
theorem uid_identity_witness :
    ApiHandler.uid [("first", "a"), ("last", "b")] =
      ApiHandler.uid [("last", "b"), ("first", "a")] :=
  uid_identity_properties.1 _ _ (List.Perm.swap _ _ _) (by decide)

/-- C2, confirmed.  On a cache hit — the source image resolves and
`FindMeme` finds the computed identity — the orchestrator performs no
generation: the run's trace is exactly the lookup operations, with no
`MemeFromFile`, `Generate` or `Save`, and the response is the redirect
reference.  Consequently (second conjunct) a second request identical to
any request that completed with a redirect is served from the cache:
whatever engine and save outcomes the second run would face, it performs
only the lookups and returns the same reference over the unchanged
filesystem. -/
theorem meme_dedup_on_hit :
    (∀ (g : GatewayCfg) (cfg : HandlerCfg) (eng : EngineOutcome)
        (so : SaveOutcome) (fs : List String) (q : List (String × String))
        (req : MemeReq), newMemeRequest q = some req →
        pathJoin g.srcPath req.From ∈ fs →
        pathJoin g.dstPath (ApiHandler.uid q) ∈ fs →
        ApiHandler.memeFromRequest g cfg eng so fs q =
          (.redirect (refURL cfg (ApiHandler.uid q)), fs,
           [.findImage req.From, .hashQuery (encodeQuery q),
            .findMeme (ApiHandler.uid q)]))
    ∧ (∀ (g : GatewayCfg) (cfg : HandlerCfg) (eng eng' : EngineOutcome)
        (so so' : SaveOutcome) (fs fs₁ : List String)
        (q : List (String × String)) (u : String) (tr₁ : List Effect),
        ApiHandler.memeFromRequest g cfg eng so fs q =
          (.redirect u, fs₁, tr₁) →
        ApiHandler.memeFromRequest g cfg eng' so' fs₁ q =
          (.redirect u, fs₁,
           [.findImage (getFirst q "from"), .hashQuery (encodeQuery q),
            .findMeme (ApiHandler.uid q)])) := by
  constructor
  · intro g cfg eng so fs q req hq hs hd
    exact memeFromRequest_hit g cfg eng so fs hq hs hd
  · intro g cfg eng eng' so so' fs fs₁ q u tr₁ h
    cases hq : newMemeRequest q with
    | none =>
      rw [memeFromRequest_invalid g cfg eng so fs hq] at h
      simp at h
    | some req =>
      have hreq := newMemeRequest_some hq
      by_cases hs : pathJoin g.srcPath req.From ∈ fs
      · by_cases hd : pathJoin g.dstPath (ApiHandler.uid q) ∈ fs
        · rw [memeFromRequest_hit g cfg eng so fs hq hs hd] at h
          simp only [Prod.mk.injEq, Response.redirect.injEq] at h
          obtain ⟨hu, hfs, -⟩ := h
          subst hfs
          have := memeFromRequest_hit g cfg eng' so' fs hq hs hd
          rw [this, hu, hreq]
        · rw [memeFromRequest_miss g cfg eng so fs hq hs hd] at h
          cases eng with
          | decodeFail => simp [ApiHandler.generateMeme] at h
          | generateFail => simp [ApiHandler.generateMeme] at h
          | ok =>
            cases so with
            | createFail =>
              simp [ApiHandler.generateMeme, FsImageGateway.save] at h
            | encodeFail =>
              simp [ApiHandler.generateMeme, FsImageGateway.save] at h
            | ok =>
              simp only [ApiHandler.generateMeme, FsImageGateway.save,
                Prod.mk.injEq, Response.redirect.injEq] at h
              obtain ⟨hu, hfs, -⟩ := h
              subst hfs
              have hs' : pathJoin g.srcPath req.From ∈
                  fsInsert fs (pathJoin g.dstPath (ApiHandler.uid q)) :=
                mem_fsInsert_of_mem _ hs
              have hd' : pathJoin g.dstPath (ApiHandler.uid q) ∈
                  fsInsert fs (pathJoin g.dstPath (ApiHandler.uid q)) :=
                mem_fsInsert_self _ _
              have := memeFromRequest_hit g cfg eng' so' _ hq hs' hd'
              rw [this, hu, hreq]
      · rw [memeFromRequest_noSource g cfg eng so fs hq hs] at h
        simp at h

/-- C2, witness: a hit with the artifact already present at the identity
path performs only the three lookups and redirects. -/
theorem meme_dedup_on_hit_witness :
    ApiHandler.memeFromRequest ⟨"src", "dst"⟩ ⟨"font", "url"⟩ .ok .ok
      ["src/earth.gif",
       "dst/" ++ ApiHandler.uid [("from", "earth.gif"), ("top", "test")]]
      [("from", "earth.gif"), ("top", "test")] =
      (.redirect (refURL ⟨"font", "url"⟩
        (ApiHandler.uid [("from", "earth.gif"), ("top", "test")])),
       ["src/earth.gif",
        "dst/" ++ ApiHandler.uid [("from", "earth.gif"), ("top", "test")]],
       [.findImage "earth.gif",
        .hashQuery (encodeQuery [("from", "earth.gif"), ("top", "test")]),
        .findMeme (ApiHandler.uid [("from", "earth.gif"), ("top", "test")])]) :=
  meme_dedup_on_hit.1 ⟨"src", "dst"⟩ ⟨"font", "url"⟩ .ok .ok _ _
    ⟨"earth.gif", "test", ""⟩ (by decide) (by decide) (by decide)

/-- C3, confirmed.  Whenever `MemeFromRequest` answers with a redirect —
cache hit or fresh generation alike — the reference is the same function
of the computed identity: `/{MemeURL}/{uid}.gif`. -/
theorem redirect_is_identity_addressed :
    ∀ (g : GatewayCfg) (cfg : HandlerCfg) (eng : EngineOutcome)
      (so : SaveOutcome) (fs fs' : List String)
      (q : List (String × String)) (u : String) (tr : List Effect),
      ApiHandler.memeFromRequest g cfg eng so fs q =
        (.redirect u, fs', tr) →
      u = refURL cfg (ApiHandler.uid q) := by
  intro g cfg eng so fs fs' q u tr h
  cases hq : newMemeRequest q with
  | none =>
    rw [memeFromRequest_invalid g cfg eng so fs hq] at h
    simp at h
  | some req =>
    by_cases hs : pathJoin g.srcPath req.From ∈ fs
    · by_cases hd : pathJoin g.dstPath (ApiHandler.uid q) ∈ fs
      · rw [memeFromRequest_hit g cfg eng so fs hq hs hd] at h
        simp only [Prod.mk.injEq, Response.redirect.injEq] at h
        exact h.1.symm
      · rw [memeFromRequest_miss g cfg eng so fs hq hs hd] at h
        cases eng with
        | decodeFail => simp [ApiHandler.generateMeme] at h
        | generateFail => simp [ApiHandler.generateMeme] at h
        | ok =>
          cases so with
          | createFail =>
            simp [ApiHandler.generateMeme, FsImageGateway.save] at h
          | encodeFail =>
            simp [ApiHandler.generateMeme, FsImageGateway.save] at h
          | ok =>
            simp only [ApiHandler.generateMeme, FsImageGateway.save,
              Prod.mk.injEq, Response.redirect.injEq] at h
            exact h.1.symm
    · rw [memeFromRequest_noSource g cfg eng so fs hq hs] at h
      simp at h

/-- C3, witness: the redirect of a concrete fresh generation is the
identity-addressed reference. -/
theorem redirect_is_identity_addressed_witness :
    refURL ⟨"font", "url"⟩
        (ApiHandler.uid [("from", "earth.gif"), ("top", "test")]) =
      refURL ⟨"font", "url"⟩
        (ApiHandler.uid [("from", "earth.gif"), ("top", "test")]) :=
  redirect_is_identity_addressed ⟨"src", "dst"⟩ ⟨"font", "url"⟩ .ok .ok
    ["src/earth.gif"]
    ["src/earth.gif",
     pathJoin "dst" (ApiHandler.uid [("from", "earth.gif"), ("top", "test")])]
    [("from", "earth.gif"), ("top", "test")]
    (refURL ⟨"font", "url"⟩
      (ApiHandler.uid [("from", "earth.gif"), ("top", "test")]))
    [.findImage "earth.gif",
     .hashQuery (encodeQuery [("from", "earth.gif"), ("top", "test")]),
     .findMeme (ApiHandler.uid [("from", "earth.gif"), ("top", "test")]),
     .memeFromFile (pathJoin "src" "earth.gif") "test" "" "font", .generate,
     .save (pathJoin "dst"
       (ApiHandler.uid [("from", "earth.gif"), ("top", "test")]))]
    (by decide)

/-- C4, confirmed.  When the named source image is not found, the run
terminates with not-found and its trace is the single failed source
lookup: the hash is never invoked and no save is attempted. -/
theorem missing_source_short_circuit :
    ∀ (g : GatewayCfg) (cfg : HandlerCfg) (eng : EngineOutcome)
      (so : SaveOutcome) (fs : List String) (q : List (String × String))
      (req : MemeReq), newMemeRequest q = some req →
      pathJoin g.srcPath req.From ∉ fs →
      ApiHandler.memeFromRequest g cfg eng so fs q =
        (.notFound, fs, [.findImage req.From]) := by
  intro g cfg eng so fs q req hq hs
  exact memeFromRequest_noSource g cfg eng so fs hq hs

/-- C4, witness: a request for `missing.gif` over an empty filesystem. -/
theorem missing_source_short_circuit_witness :
    ApiHandler.memeFromRequest ⟨"src", "dst"⟩ ⟨"font", "url"⟩ .ok .ok []
      [("from", "missing.gif"), ("top", "a")] =
      (.notFound, [], [.findImage "missing.gif"]) :=
  missing_source_short_circuit ⟨"src", "dst"⟩ ⟨"font", "url"⟩ .ok .ok []
    [("from", "missing.gif"), ("top", "a")] ⟨"missing.gif", "a", ""⟩
    (by decide) (by decide)

/-- C5, confirmed.  A request with no `from` parameter, or with both
captions empty, fails validation and the run ends as a bad request with
an empty trace — before any gateway operation; a request with a source
name and at least one non-empty caption passes validation. -/
theorem meme_validation_boundary :
    (∀ (g : GatewayCfg) (cfg : HandlerCfg) (eng : EngineOutcome)
        (so : SaveOutcome) (fs : List String) (q : List (String × String)),
        (getFirst q "from" = "" ∨
          (getFirst q "top" = "" ∧ getFirst q "bottom" = "")) →
        ApiHandler.memeFromRequest g cfg eng so fs q = (.badRequest, fs, []))
    ∧ (∀ q : List (String × String), getFirst q "from" ≠ "" →
        (getFirst q "top" ≠ "" ∨ getFirst q "bottom" ≠ "") →
        newMemeRequest q =
          some ⟨getFirst q "from", getFirst q "top", getFirst q "bottom"⟩) := by
  constructor
  · intro g cfg eng so fs q h
    have hnone : newMemeRequest q = none := by
      unfold newMemeRequest validateMemeReq
      rcases h with h | ⟨h₁, h₂⟩
      · simp [h]
      · simp [h₁, h₂]
    exact memeFromRequest_invalid g cfg eng so fs hnone
  · intro q hf ht
    unfold newMemeRequest validateMemeReq
    rcases ht with ht | ht <;> simp [hf, ht]

/-- C5, witness: a sourceless request is rejected before any gateway
call, and a request with one caption passes validation. -/
theorem meme_validation_boundary_witness :
    ApiHandler.memeFromRequest ⟨"src", "dst"⟩ ⟨"font", "url"⟩ .ok .ok []
        [("top", "a"), ("bottom", "b")] = (.badRequest, [], [])
    ∧ newMemeRequest [("from", "e.gif"), ("top", "a")] =
        some ⟨"e.gif", "a", ""⟩ :=
  ⟨meme_validation_boundary.1 ⟨"src", "dst"⟩ ⟨"font", "url"⟩ .ok .ok []
      [("top", "a"), ("bottom", "b")] (by decide),
   meme_validation_boundary.2 [("from", "e.gif"), ("top", "a")]
      (by decide) (by decide)⟩

/-- C6, corrected.  Orchestrator validation of a preview request rejects a
missing source name and any width or height that is not a syntactically
valid (optionally signed) decimal integer, and a rejected request never
reaches the Compositing Engine — the run ends as a bad request with an
empty trace.  Zero and negative integer dimensions, however, satisfy
`is.Int` and pass validation (the unsigned re-parse then coerces a
negative value to 0), so they do reach the engine: see the
counterexample. -/
theorem preview_validation_amended :
    (∀ (g : GatewayCfg) (cfg : HandlerCfg) (po : PreviewOutcome)
        (fs : List String) (q : List (String × String)),
        newPreviewRequest q = none →
        ApiHandler.previewFromRequest g cfg po fs q = (.badRequest, []))
    ∧ (∀ q : List (String × String),
        isIntStr (getFirst q "width") = false ∨
          isIntStr (getFirst q "height") = false ∨
          getFirst q "from" = "" →
        newPreviewRequest q = none) := by
  constructor
  · intro g cfg po fs q h
    simp [ApiHandler.previewFromRequest, h]
  · intro q h
    unfold newPreviewRequest validatePreviewReq
    rcases h with h | h | h <;> simp [h]

/-- C6, counterexample to the claim as stated.  A preview request with
`width=0` passes orchestrator validation (`is.Int` accepts `"0"`), and the
Compositing Engine — `SimpleTemplate`, `GetGif` and `Preview` — is invoked
for it, with the zero width handed to `Preview`. -/
theorem preview_zero_width_counterexample :
    validatePreviewReq ⟨"g.gif", "0", "20"⟩ = true
    ∧ ApiHandler.previewFromRequest ⟨"src", "dst"⟩ ⟨"font", "url"⟩ .ok
        ["src/g.gif"] [("from", "g.gif"), ("width", "0"), ("height", "20")] =
        (.okJpeg 0 20,
         [.findImage "g.gif", .simpleTemplate "src/g.gif" "font", .getGif,
          .preview 0 20]) := by
  exact ⟨by decide, by decide⟩

/-- C6, witness: a non-integer width is rejected before the engine. -/
theorem preview_validation_amended_witness :
    ApiHandler.previewFromRequest ⟨"src", "dst"⟩ ⟨"font", "url"⟩ .ok []
        [("from", "g.gif"), ("width", "a"), ("height", "20")] =
        (.badRequest, [])
    ∧ newPreviewRequest
        [("from", "g.gif"), ("width", "a"), ("height", "20")] = none :=
  ⟨preview_validation_amended.1 ⟨"src", "dst"⟩ ⟨"font", "url"⟩ .ok []
      [("from", "g.gif"), ("width", "a"), ("height", "20")] (by decide),
   preview_validation_amended.2
      [("from", "g.gif"), ("width", "a"), ("height", "20")] (by decide)⟩

/-- C7: evaluation of the code at the failing input.  On a fresh request
the artifact is looked up and saved at `OutputPath/{uid}` — the bare
identity with no `.gif` suffix, because `MemeFromRequest` passes `uid`
(not `uid + ".gif"`) to `MemeExists`/`FindMeme` and saves to the path the
miss returned — while the redirect reference embeds `{uid}.gif`.  The
save path and the name the reference points at differ, contradicting the
claimed `{uid}.gif` naming (which the code's own comment, its sibling
`MemeService.GenerateMeme`, and the spec all prescribe). -/
theorem artifact_name_mismatch_eval :
    ApiHandler.memeFromRequest ⟨"src", "dst"⟩ ⟨"font", "url"⟩ .ok .ok
      ["src/earth.gif"] [("from", "earth.gif"), ("top", "test")] =
      (.redirect ("/url/" ++
         ApiHandler.uid [("from", "earth.gif"), ("top", "test")] ++ ".gif"),
       ["src/earth.gif",
        "dst/" ++ ApiHandler.uid [("from", "earth.gif"), ("top", "test")]],
       [.findImage "earth.gif", .hashQuery "from=earth.gif&top=test",
        .findMeme (ApiHandler.uid [("from", "earth.gif"), ("top", "test")]),
        .memeFromFile "src/earth.gif" "test" "" "font", .generate,
        .save ("dst/" ++
          ApiHandler.uid [("from", "earth.gif"), ("top", "test")])])
    ∧ ("dst/" ++ ApiHandler.uid [("from", "earth.gif"), ("top", "test")]) ≠
      ("dst/" ++ ApiHandler.uid [("from", "earth.gif"), ("top", "test")]
        ++ ".gif") := by
  exact ⟨by decide, by decide⟩

/-- C8, corrected.  When persisting fails the request terminates with an
internal (persist) error; if `os.Create` itself failed no artifact
appears, but if `gif.EncodeAll` fails after the file was created, the
partially written file remains on disk at the artifact path — it is not
discarded, and later lookups will see it (see the counterexample). -/
theorem persist_failure_amended :
    ∀ (g : GatewayCfg) (cfg : HandlerCfg) (fs : List String)
      (q : List (String × String)) (req : MemeReq),
      newMemeRequest q = some req →
      pathJoin g.srcPath req.From ∈ fs →
      pathJoin g.dstPath (ApiHandler.uid q) ∉ fs →
      (ApiHandler.memeFromRequest g cfg .ok .createFail fs q =
        (.internalError, fs,
         [.findImage req.From, .hashQuery (encodeQuery q),
          .findMeme (ApiHandler.uid q),
          .memeFromFile (pathJoin g.srcPath req.From) req.Top req.Bottom
            cfg.fontName, .generate,
          .save (pathJoin g.dstPath (ApiHandler.uid q))]))
      ∧ (ApiHandler.memeFromRequest g cfg .ok .encodeFail fs q =
        (.internalError, fs ++ [pathJoin g.dstPath (ApiHandler.uid q)],
         [.findImage req.From, .hashQuery (encodeQuery q),
          .findMeme (ApiHandler.uid q),
          .memeFromFile (pathJoin g.srcPath req.From) req.Top req.Bottom
            cfg.fontName, .generate,
          .save (pathJoin g.dstPath (ApiHandler.uid q))])) := by
  intro g cfg fs q req hq hs hd
  constructor
  · rw [memeFromRequest_miss g cfg .ok .createFail fs hq hs hd]
    simp [ApiHandler.generateMeme, FsImageGateway.save]
  · rw [memeFromRequest_miss g cfg .ok .encodeFail fs hq hs hd]
    simp [ApiHandler.generateMeme, FsImageGateway.save, fsInsert, hd]

/-- C8, counterexample to the claim as stated.  A run whose encoding step
fails during `Save` ends with a persist error, yet a subsequent `FindMeme`
for the same identity *does* observe the half-written file at the artifact
path. -/
theorem persist_partial_file_counterexample :
    ApiHandler.memeFromRequest ⟨"src", "dst"⟩ ⟨"font", "url"⟩ .ok .encodeFail
      ["src/earth.gif"] [("from", "earth.gif"), ("top", "test")] =
      (.internalError,
       ["src/earth.gif",
        "dst/" ++ ApiHandler.uid [("from", "earth.gif"), ("top", "test")]],
       [.findImage "earth.gif", .hashQuery "from=earth.gif&top=test",
        .findMeme (ApiHandler.uid [("from", "earth.gif"), ("top", "test")]),
        .memeFromFile "src/earth.gif" "test" "" "font", .generate,
        .save ("dst/" ++
          ApiHandler.uid [("from", "earth.gif"), ("top", "test")])])
    ∧ (FsImageGateway.findMeme ⟨"src", "dst"⟩
        ["src/earth.gif",
         "dst/" ++ ApiHandler.uid [("from", "earth.gif"), ("top", "test")]]
        (ApiHandler.uid [("from", "earth.gif"), ("top", "test")])).2 =
      true := by
  exact ⟨by decide, by decide⟩

/-- C8, witness: the amended theorem at a concrete creation failure — the
filesystem is unchanged. -/
theorem persist_failure_amended_witness :
    ApiHandler.memeFromRequest ⟨"src", "dst"⟩ ⟨"font", "url"⟩ .ok .createFail
      ["src/earth.gif"] [("from", "earth.gif"), ("top", "test")] =
      (.internalError, ["src/earth.gif"],
       [.findImage "earth.gif",
        .hashQuery (encodeQuery [("from", "earth.gif"), ("top", "test")]),
        .findMeme (ApiHandler.uid [("from", "earth.gif"), ("top", "test")]),
        .memeFromFile (pathJoin "src" "earth.gif") "test" "" "font",
        .generate,
        .save (pathJoin "dst"
          (ApiHandler.uid [("from", "earth.gif"), ("top", "test")]))]) :=
  (persist_failure_amended ⟨"src", "dst"⟩ ⟨"font", "url"⟩ ["src/earth.gif"]
    [("from", "earth.gif"), ("top", "test")] ⟨"earth.gif", "test", ""⟩
    (by decide) (by decide) (by decide)).1

/-- C9, confirmed against the spec-modelled engine.  `GenerateMeme`
produces an animation with the same number of frames, and each output
frame carries the delay and disposal metadata of the corresponding input
frame. -/
theorem generate_preserves_frames :
    ∀ (top bottom : String) (a : Animation),
      (generateAnimation top bottom a).frames.length = a.frames.length
      ∧ ∀ i : Nat,
        ((generateAnimation top bottom a).frames[i]?.map Frame.delay =
          a.frames[i]?.map Frame.delay)
        ∧ ((generateAnimation top bottom a).frames[i]?.map Frame.disposal =
          a.frames[i]?.map Frame.disposal) := by
  intro top bottom a
  refine ⟨by simp [generateAnimation], fun i => ⟨?_, ?_⟩⟩
  · cases h : a.frames[i]? <;>
      simp [generateAnimation, List.getElem?_map, h, captionFrame]
  · cases h : a.frames[i]? <;>
      simp [generateAnimation, List.getElem?_map, h, captionFrame]

/-- C10, confirmed.  `FindImage` and `FindMeme` always return the full
joined path — also on a `NotFound` miss — and on a cache miss the
orchestrator saves the freshly generated artifact exactly to the path the
failed `FindMeme` returned. -/
theorem find_returns_path_and_miss_save :
    (∀ (g : GatewayCfg) (fs : List String) (name : String),
      (FsImageGateway.findImage g fs name).1 = pathJoin g.srcPath name
      ∧ (FsImageGateway.findMeme g fs name).1 = pathJoin g.dstPath name)
    ∧ (∀ (g : GatewayCfg) (cfg : HandlerCfg) (so : SaveOutcome)
        (fs : List String) (q : List (String × String)) (req : MemeReq),
        newMemeRequest q = some req →
        pathJoin g.srcPath req.From ∈ fs →
        pathJoin g.dstPath (ApiHandler.uid q) ∉ fs →
        (ApiHandler.memeFromRequest g cfg .ok so fs q).2.2 =
          [.findImage req.From, .hashQuery (encodeQuery q),
           .findMeme (ApiHandler.uid q),
           .memeFromFile (FsImageGateway.findImage g fs req.From).1 req.Top
             req.Bottom cfg.fontName, .generate,
           .save (FsImageGateway.findMeme g fs (ApiHandler.uid q)).1]) := by
  constructor
  · intro g fs name
    exact ⟨rfl, rfl⟩
  · intro g cfg so fs q req hq hs hd
    rw [memeFromRequest_miss g cfg .ok so fs hq hs hd]
    cases so <;>
      simp [ApiHandler.generateMeme, FsImageGateway.save,
        FsImageGateway.findImage, FsImageGateway.findMeme,
        FsImageGateway.find]

/-- C10, witness: a concrete miss saves to the very path the failed
`FindMeme` lookup returned. -/
theorem find_returns_path_and_miss_save_witness :
    (ApiHandler.memeFromRequest ⟨"src", "dst"⟩ ⟨"font", "url"⟩ .ok .ok
      ["src/earth.gif"] [("from", "earth.gif"), ("top", "test")]).2.2 =
      [.findImage "earth.gif",
       .hashQuery (encodeQuery [("from", "earth.gif"), ("top", "test")]),
       .findMeme (ApiHandler.uid [("from", "earth.gif"), ("top", "test")]),
       .memeFromFile
         (FsImageGateway.findImage ⟨"src", "dst"⟩ ["src/earth.gif"]
           "earth.gif").1 "test" "" "font", .generate,
       .save (FsImageGateway.findMeme ⟨"src", "dst"⟩ ["src/earth.gif"]
         (ApiHandler.uid [("from", "earth.gif"), ("top", "test")])).1] :=
  find_returns_path_and_miss_save.2 ⟨"src", "dst"⟩ ⟨"font", "url"⟩ .ok
    ["src/earth.gif"] [("from", "earth.gif"), ("top", "test")]
    ⟨"earth.gif", "test", ""⟩ (by decide) (by decide) (by decide)
